import Mathlib

/-!
Shallow embedding of `src/index.ts` (the tsend response-shaping library).

The embedding models the JavaScript runtime values the library manipulates
(primitives and flat plain objects; arrays and functions are not needed by
any claim) and translates each source function.  A JS object is modelled as
an association list `List (String × JSVal)` in insertion order, matching how
`Object.keys`, lodash `findKey` and lodash `pick` enumerate keys.

The mutual recursion `generateResponse` → `error` → `generateResponse` in the
source is not structurally terminating (when no branch of the config matches
the candidate, `error({message:''}, config)` feeds an object without a
`status` key straight back into `generateResponse`), so the recursive
functions take an explicit fuel argument; `none` means the call did not
finish within the given fuel, and a result that is `none` for every fuel is a
divergent (stack-overflowing) call of the original program.
-/

namespace TSend

/-- JavaScript runtime values, restricted to primitives and flat plain
objects (no arrays/functions: no claim mentions them, and the library never
inspects field values). An object is its own-key/value list in insertion
order. -/
inductive JSVal where
  | vNull
  | vUndefined
  | vBool (b : Bool)
  | vNum (n : Int)
  | vStr (s : String)
  | vObj (fields : List (String × JSVal))

/-- Own fields of a plain JS object, in insertion order. -/
abbrev Fields := List (String × JSVal)

/-- One branch of a config: the TS type `{ required: string[]; optional?: string[] }`. -/
structure BranchSpec where
  required : List String
  optional : Option (List String)

/-- A config (`TConfigTemplate` at runtime): ordered mapping branch-name → branch spec. -/
abbrev Config := List (String × BranchSpec)

/-- Translation of `JSEND_CONFIG` from `src/index.ts`. -/
def JSEND_CONFIG : Config :=
  [("success", BranchSpec.mk ["status", "data"] none),
   ("fail", BranchSpec.mk ["status", "data"] none),
   ("error", BranchSpec.mk ["status", "message"] (some ["code", "data"]))]

/-- JS `key in data` for a plain object: own-key membership
(prototype-chain keys such as `toString` are not modelled; no claim uses them). -/
def hasKey (fields : Fields) (k : String) : Bool :=
  fields.any (fun p => p.1 == k)

/-- Lookup `data[k]`: value of the first (in a real JS object: only) entry with key `k`. -/
def jsLookup : Fields → String → Option JSVal
  | [], _ => none
  | p :: rest, k => if p.1 == k then some p.2 else jsLookup rest k

/-- Translation of `requireKeys` (src/index.ts:42): `keys.every((key) => key in data)`. -/
def requireKeys (keys : List String) (data : Fields) : Bool :=
  keys.all (fun key => hasKey data key)

/-- Translation of `isValid` (src/index.ts:54): some branch of `config` has all
its required keys in `data` (each `spec` from `Object.keys` is truthy, so the
`!!spec &&` guard is always passed). -/
def isValid (data : Fields) (config : Config) : Bool :=
  config.any (fun e => requireKeys e.2.required data)

/-- lodash `findKey(config, spec => requireKeys(spec?.required, data))`:
first key (in declaration order) whose branch spec matches `data`. -/
def findKey (config : Config) (data : Fields) : Option String :=
  (config.find? (fun e => requireKeys e.2.required data)).map (fun e => e.1)

/-- lodash `get(config, status, { required: [], optional: [] })`. -/
def getSpec (config : Config) (status : String) : BranchSpec :=
  ((config.find? (fun e => e.1 == status)).map (fun e => e.2)).getD
    (BranchSpec.mk [] (some []))

/-- JS property assignment `obj[k] = v`: overwrite the entry with key `k` in
place, or append a new entry (used to model lodash `baseSet` inside `pick`). -/
def objSet : Fields → String → JSVal → Fields
  | [], k, v => [(k, v)]
  | p :: rest, k, v => if p.1 == k then (k, v) :: rest else p :: objSet rest k v

/-- One step of lodash `pick`: copy key `k` from `data` onto `acc` when present. -/
def pickStep (data : Fields) (acc : Fields) (k : String) : Fields :=
  match jsLookup data k with
  | some v => objSet acc k v
  | none => acc

/-- lodash `pick(data, keys)`: a fresh object; for each key of `keys` in
order, if the key exists on `data`, set it on the result to `data`'s value. -/
def pick (data : Fields) (keys : List String) : Fields :=
  keys.foldl (pickStep data) []

/-- The object literal `{ message: '' }` passed to `error` on every failure path. -/
def ERROR_FIELDS : Fields := [("message", JSVal.vStr "")]

/-- The failure-path argument `{ message: '' }` as a JS value. -/
def ERROR_DATA : JSVal := JSVal.vObj ERROR_FIELDS

/-- Translation of `generateResponse` (src/index.ts:161), with fuel.
Non-objects and candidates matching no branch go to `error({message:''},
config)`; since `{message:''}` is an object and `forceCreate` defaults to
false, that call is definitionally `generateResponse({message:''}, config)`
(see `error` below), so the redirect is inlined here, one fuel unit per
redirected frame.  A found `status` key is a string, so `isNil(status)` is
false; `data` is an object there, so `isNil(data)` is false. -/
def generateResponse : Nat → JSVal → Config → Option JSVal
  | 0, _, _ => none
  | fuel + 1, data, config =>
    match data with
    | JSVal.vObj fields =>
      match findKey config fields with
      | some status =>
        let spec := getSpec config status
        some (JSVal.vObj (pick fields (spec.required ++ spec.optional.getD [])))
      | none => generateResponse fuel ERROR_DATA config
    | _ => generateResponse fuel ERROR_DATA config

/-- The spread `{ status, ...data }` used on the `forceCreate` branches:
start from `{status: s}` and assign each field of `data` in order. -/
def spreadStatus (s : String) (fields : Fields) : Fields :=
  fields.foldl (fun acc p => objSet acc p.1 p.2) [("status", JSVal.vStr s)]

/-- Translation of the free function `error` (src/index.ts:136), with fuel.
Note the `forceCreate` call `generateResponse({status, ...data})` uses the
default config, not `config`. -/
def error (fuel : Nat) (data : JSVal) (config : Config) (forceCreate : Bool) : Option JSVal :=
  match fuel with
  | 0 => none
  | f + 1 =>
    match data with
    | JSVal.vObj fields =>
      if forceCreate then
        generateResponse f (JSVal.vObj (spreadStatus "error" fields)) JSEND_CONFIG
      else generateResponse f data config
    | _ => error f ERROR_DATA config false

/-- Translation of the free function `success` (src/index.ts:82), with fuel. -/
def success (fuel : Nat) (data : JSVal) (config : Config) (forceCreate : Bool) : Option JSVal :=
  match fuel with
  | 0 => none
  | f + 1 =>
    match data with
    | JSVal.vObj fields =>
      if forceCreate then
        generateResponse f (JSVal.vObj (spreadStatus "success" fields)) JSEND_CONFIG
      else generateResponse f data config
    | _ => error f ERROR_DATA config false

/-- Translation of the free function `fail` (src/index.ts:109), with fuel. -/
def fail (fuel : Nat) (data : JSVal) (config : Config) (forceCreate : Bool) : Option JSVal :=
  match fuel with
  | 0 => none
  | f + 1 =>
    match data with
    | JSVal.vObj fields =>
      if forceCreate then
        generateResponse f (JSVal.vObj (spreadStatus "fail" fields)) JSEND_CONFIG
      else generateResponse f data config
    | _ => error f ERROR_DATA config false

/-- A runtime branch spec as `isValidConfig` sees it: `required` may be
missing (the TS type demands it, but e.g. `{bogus: {}}` lacks it at runtime). -/
structure RawBranchSpec where
  required : Option (List String)
  optional : Option (List String)

/-- A runtime config object, possibly invalid. -/
abbrev RawConfig := List (String × RawBranchSpec)

/-- Translation of `isValidConfig` (src/index.ts:69): every branch spec has
an own `required` property (lodash `every`/`has`). -/
def isValidConfig (config : RawConfig) : Bool :=
  config.all (fun e => e.2.required.isSome)

/-- View a well-typed branch spec as a runtime one. -/
def BranchSpec.toRaw (b : BranchSpec) : RawBranchSpec :=
  RawBranchSpec.mk (some b.required) b.optional

/-- View a well-typed config as a runtime config object. -/
def configToRaw (c : Config) : RawConfig :=
  c.map (fun e => (e.1, e.2.toRaw))

/-- Translation of `new TSEnd(config?)` (src/index.ts:204): throw iff a
config was supplied and `isValidConfig` rejects it; otherwise the instance
holds the supplied config or, when absent, `JSEND_CONFIG`. -/
def TSEnd.construct (config : Option RawConfig) : Except Unit RawConfig :=
  match config with
  | some c => if isValidConfig c then Except.ok c else Except.error ()
  | none => Except.ok (configToRaw JSEND_CONFIG)

/-- lodash `isNil`: null or undefined. -/
def isNilJS : JSVal → Bool
  | JSVal.vNull => true
  | JSVal.vUndefined => true
  | _ => false

/-- lodash `isString`. -/
def isStringJS : JSVal → Bool
  | JSVal.vStr _ => true
  | _ => false

/-- lodash `isEmpty`: true for nil, numbers and booleans, the empty string
and the empty object. -/
def isEmptyJS : JSVal → Bool
  | JSVal.vNull => true
  | JSVal.vUndefined => true
  | JSVal.vBool _ => true
  | JSVal.vNum _ => true
  | JSVal.vStr s => s.isEmpty
  | JSVal.vObj fields => fields.isEmpty

/-- Translation of the static `TSEnd.error` (src/index.ts:278).  The guard
recursion (`isEmpty(message) && !isString(message)`) reaches depth at most
one, since its argument `''` is a string. -/
def TSEnd.error (message : JSVal) : JSVal :=
  if h : (isEmptyJS message && !isStringJS message) = true then
    TSEnd.error (JSVal.vStr "")
  else
    JSVal.vObj [("status", JSVal.vStr "error"), ("message", message)]
termination_by (if isStringJS message then 0 else 1)
decreasing_by
  simp only [Bool.and_eq_true, Bool.not_eq_true'] at h
  simp only [h.2]
  simp [isStringJS]

/-- Translation of the static `TSEnd.success` (src/index.ts:248). -/
def TSEnd.success (data : JSVal) : JSVal :=
  if isNilJS data then TSEnd.error (JSVal.vStr "")
  else JSVal.vObj [("status", JSVal.vStr "success"), ("data", data)]

/-- Translation of the static `TSEnd.fail` (src/index.ts:263). -/
def TSEnd.fail (data : JSVal) : JSVal :=
  if isNilJS data then TSEnd.error (JSVal.vStr "")
  else JSVal.vObj [("status", JSVal.vStr "fail"), ("data", data)]

/-- Fuel-free semantics of the projector: `generateResponse(data, config)`
returns `r` when some fuel suffices. -/
def projectsTo (data : JSVal) (config : Config) (r : JSVal) : Prop :=
  ∃ fuel, generateResponse fuel data config = some r

/-- Fuel-free divergence: the call never finishes, for any amount of fuel
(the original program overflows the stack). -/
def projDiverges (data : JSVal) (config : Config) : Prop :=
  ∀ fuel, generateResponse fuel data config = none

/-! Basic lemmas about the key-presence primitives. -/

theorem hasKey_eq_true_iff {fields : Fields} {k : String} :
    hasKey fields k = true ↔ ∃ p ∈ fields, p.1 = k := by
  simp [hasKey, List.any_eq_true]

theorem jsLookup_isSome (fields : Fields) (k : String) :
    (jsLookup fields k).isSome = hasKey fields k := by
  induction fields with
  | nil => simp [jsLookup, hasKey]
  | cons p rest ih =>
    by_cases h : p.1 = k
    · simp [jsLookup, hasKey, h]
    · simp [jsLookup, hasKey, h, ih]

theorem jsLookup_eq_none_of_hasKey_false {fields : Fields} {k : String}
    (h : hasKey fields k = false) : jsLookup fields k = none := by
  have hs := jsLookup_isSome fields k
  rw [h] at hs
  exact Option.not_isSome_iff_eq_none.mp (by simp [hs])

theorem jsLookup_isSome_of_hasKey {fields : Fields} {k : String}
    (h : hasKey fields k = true) : ∃ v, jsLookup fields k = some v := by
  have hs := jsLookup_isSome fields k
  rw [h] at hs
  exact Option.isSome_iff_exists.mp hs

theorem requireKeys_eq_true_iff {keys : List String} {data : Fields} :
    requireKeys keys data = true ↔ ∀ k ∈ keys, hasKey data k = true := by
  simp [requireKeys, List.all_eq_true]

theorem requireKeys_eq_false_iff {keys : List String} {data : Fields} :
    requireKeys keys data = false ↔ ∃ k ∈ keys, hasKey data k = false := by
  rw [← Bool.not_eq_true, requireKeys_eq_true_iff]
  simp

/-! Lemmas about `objSet` and `pick`. -/

theorem jsLookup_objSet (acc : Fields) (k : String) (v : JSVal) (k2 : String) :
    jsLookup (objSet acc k v) k2 = if k2 = k then some v else jsLookup acc k2 := by
  induction acc with
  | nil =>
    by_cases h : k2 = k
    · simp [objSet, jsLookup, h]
    · have h2 : ¬ k = k2 := fun hh => h hh.symm
      simp [objSet, jsLookup, h, h2]
  | cons p rest ih =>
    by_cases hp : p.1 = k
    · by_cases h : k2 = k
      · simp [objSet, jsLookup, hp, h]
      · have h2 : ¬ k = k2 := fun hh => h hh.symm
        simp [objSet, jsLookup, hp, h, h2]
    · by_cases h2 : p.1 = k2
      · have hk2 : ¬ k2 = k := fun hh => hp (h2.trans hh)
        simp [objSet, jsLookup, hp, h2, hk2]
      · simp [objSet, jsLookup, hp, h2, ih]

theorem mem_objSet {acc : Fields} {k : String} {v : JSVal} {p : String × JSVal}
    (h : p ∈ objSet acc k v) : p ∈ acc ∨ p = (k, v) := by
  induction acc with
  | nil => simp [objSet] at h; simp [h]
  | cons q rest ih =>
    by_cases hq : q.1 = k
    · simp [objSet, hq] at h
      rcases h with h | h
      · exact Or.inr h
      · exact Or.inl (List.mem_cons_of_mem q h)
    · simp [objSet, hq] at h
      rcases h with h | h
      · exact Or.inl (by simp [h])
      · rcases ih h with h2 | h2
        · exact Or.inl (List.mem_cons_of_mem q h2)
        · exact Or.inr h2

theorem jsLookup_pickAux (data : Fields) :
    ∀ (keys : List String) (acc : Fields) (k : String),
      jsLookup (keys.foldl (pickStep data) acc) k
        = if k ∈ keys ∧ hasKey data k = true then jsLookup data k else jsLookup acc k := by
  intro keys
  induction keys with
  | nil => intro acc k; simp
  | cons k1 ks ih =>
    intro acc k
    rw [List.foldl_cons, ih]
    by_cases hk : k = k1
    · subst hk
      cases heq : jsLookup data k with
      | none =>
        have hkd : hasKey data k = false := by
          have hs := jsLookup_isSome data k
          rw [heq] at hs
          simp at hs
          simp [hs]
        simp [pickStep, heq, hkd]
      | some v =>
        have hkd : hasKey data k = true := by
          have hs := jsLookup_isSome data k
          rw [heq] at hs
          simp at hs
          simp [hs]
        by_cases hmem : k ∈ ks
        · simp [pickStep, heq, hkd, hmem]
        · simp [pickStep, heq, hkd, hmem, jsLookup_objSet]
    · cases heq : jsLookup data k1 with
      | none => simp [pickStep, heq, hk]
      | some v => simp [pickStep, heq, hk, jsLookup_objSet]

theorem jsLookup_pick (data : Fields) (keys : List String) (k : String) :
    jsLookup (pick data keys) k
      = if k ∈ keys ∧ hasKey data k = true then jsLookup data k else none := by
  rw [pick, jsLookup_pickAux]
  rfl

theorem hasKey_pick_iff {data : Fields} {keys : List String} {k : String} :
    hasKey (pick data keys) k = true ↔ k ∈ keys ∧ hasKey data k = true := by
  rw [← jsLookup_isSome, jsLookup_pick]
  by_cases h : k ∈ keys ∧ hasKey data k = true
  · rw [if_pos h]
    simp [jsLookup_isSome, h.1, h.2]
  · rw [if_neg h]
    simp [h]

theorem hasKey_pick_false {data : Fields} {keys : List String} {k : String}
    (h : hasKey data k = false) : hasKey (pick data keys) k = false := by
  rw [← Bool.not_eq_true, hasKey_pick_iff]
  simp [h]

theorem mem_pickAux (data : Fields) :
    ∀ (keys : List String) (acc : Fields) (p : String × JSVal),
      p ∈ keys.foldl (pickStep data) acc →
        p ∈ acc ∨ (p.1 ∈ keys ∧ jsLookup data p.1 = some p.2) := by
  intro keys
  induction keys with
  | nil => intro acc p h; simp at h; exact Or.inl h
  | cons k1 ks ih =>
    intro acc p h
    rw [List.foldl_cons] at h
    rcases ih (pickStep data acc k1) p h with h2 | h2
    · cases heq : jsLookup data k1 with
      | none => rw [pickStep, heq] at h2; exact Or.inl h2
      | some v =>
        rw [pickStep, heq] at h2
        rcases mem_objSet h2 with h3 | h3
        · exact Or.inl h3
        · refine Or.inr ⟨?_, ?_⟩
          · rw [h3]; exact List.mem_cons_self k1 ks
          · rw [h3]; simpa using heq
    · exact Or.inr ⟨List.mem_cons_of_mem k1 h2.1, h2.2⟩

theorem mem_pick {data : Fields} {keys : List String} {p : String × JSVal}
    (h : p ∈ pick data keys) : p.1 ∈ keys ∧ jsLookup data p.1 = some p.2 := by
  rcases mem_pickAux data keys [] p h with h2 | h2
  · simp at h2
  · exact h2

theorem pick_congr {d1 d2 : Fields} (keys : List String)
    (h : ∀ k ∈ keys, jsLookup d1 k = jsLookup d2 k) : pick d1 keys = pick d2 keys := by
  rw [pick, pick]
  suffices haux : ∀ (ks : List String) (acc : Fields), (∀ k ∈ ks, jsLookup d1 k = jsLookup d2 k) →
      ks.foldl (pickStep d1) acc = ks.foldl (pickStep d2) acc from haux keys [] h
  intro ks
  induction ks with
  | nil => intro acc _; rfl
  | cons k1 rest ih =>
    intro acc hks
    rw [List.foldl_cons, List.foldl_cons]
    have hstep : pickStep d1 acc k1 = pickStep d2 acc k1 := by
      rw [pickStep, pickStep, hks k1 (List.mem_cons_self k1 rest)]
    rw [hstep]
    exact ih (pickStep d2 acc k1) (fun k hk => hks k (List.mem_cons_of_mem k1 hk))

theorem jsLookup_pick_mem {data : Fields} {keys : List String} {k : String}
    (hk : k ∈ keys) : jsLookup (pick data keys) k = jsLookup data k := by
  rw [jsLookup_pick]
  by_cases h : hasKey data k = true
  · simp [hk, h]
  · have hn : hasKey data k = false := by simpa using h
    rw [if_neg (by simp [hn])]
    exact (jsLookup_eq_none_of_hasKey_false hn).symm

theorem pick_pick (data : Fields) (keys : List String) :
    pick (pick data keys) keys = pick data keys :=
  pick_congr keys (fun _ hk => jsLookup_pick_mem hk)

/-! First-match characterization of `List.find?`, and key lookup under
distinct config keys. -/

theorem find?_some_index {α : Type} {p : α → Bool} :
    ∀ {l : List α} {a : α}, l.find? p = some a →
      ∃ i, ∃ hi : i < l.length, l.get ⟨i, hi⟩ = a ∧ p a = true ∧
        ∀ j, ∀ hj : j < l.length, j < i → p (l.get ⟨j, hj⟩) = false := by
  intro l
  induction l with
  | nil => intro a h; simp [List.find?] at h
  | cons x rest ih =>
    intro a h
    cases hx : p x with
    | true =>
      rw [List.find?_cons_of_pos _ hx] at h
      have hxa : x = a := by injection h
      refine ⟨0, by simp, by simpa using hxa, hxa ▸ hx, ?_⟩
      intro j hj hj0; omega
    | false =>
      rw [List.find?_cons_of_neg _ (by simp [hx])] at h
      rcases ih h with ⟨i, hi, hget, hpa, hearl⟩
      refine ⟨i + 1, by simpa using Nat.succ_lt_succ hi, by simpa using hget, hpa, ?_⟩
      intro j hj hlt
      cases j with
      | zero => simpa using hx
      | succ j2 =>
        have hj2 : j2 < rest.length := by simpa using Nat.lt_of_succ_lt_succ hj
        have := hearl j2 hj2 (Nat.lt_of_succ_lt_succ hlt)
        simpa using this

theorem find?_eq_of_earlier_false {α : Type} {p : α → Bool} :
    ∀ {l : List α} {i : Nat} (hi : i < l.length),
      p (l.get ⟨i, hi⟩) = true →
      (∀ j, ∀ hj : j < l.length, j < i → p (l.get ⟨j, hj⟩) = false) →
      l.find? p = some (l.get ⟨i, hi⟩) := by
  intro l
  induction l with
  | nil => intro i hi; simp at hi
  | cons x rest ih =>
    intro i hi hp hearl
    cases i with
    | zero =>
      simp at hp
      rw [List.find?_cons_of_pos _ hp]
      simp
    | succ i2 =>
      have hx : p x = false := by
        have := hearl 0 (by simp) (Nat.succ_pos i2)
        simpa using this
      rw [List.find?_cons_of_neg _ (by simp [hx])]
      have hi2 : i2 < rest.length := by simpa using Nat.lt_of_succ_lt_succ hi
      have hearl2 : ∀ j, ∀ hj : j < rest.length, j < i2 → p (rest.get ⟨j, hj⟩) = false := by
        intro j hj hlt
        have := hearl (j + 1) (by simpa using Nat.succ_lt_succ hj) (Nat.succ_lt_succ hlt)
        simpa using this
      have := ih hi2 (by simpa using hp) hearl2
      simpa using this

theorem key_unique {config : Config} (hnd : (config.map Prod.fst).Nodup) :
    ∀ e ∈ config, ∀ q ∈ config, q.1 = e.1 → q = e := by
  induction config with
  | nil => intro e he; simp at he
  | cons c rest ih =>
    rw [List.map_cons, List.nodup_cons] at hnd
    intro e he q hq hkey
    rcases List.mem_cons.mp he with he2 | he2 <;> rcases List.mem_cons.mp hq with hq2 | hq2
    · rw [he2, hq2]
    · exfalso
      apply hnd.1
      rw [← he2, ← hkey]
      exact List.mem_map_of_mem Prod.fst hq2
    · exfalso
      apply hnd.1
      rw [← hq2, hkey]
      exact List.mem_map_of_mem Prod.fst he2
    · exact ih hnd.2 e he2 q hq2 hkey

theorem getSpec_of_mem {config : Config} (hnd : (config.map Prod.fst).Nodup)
    {e : String × BranchSpec} (he : e ∈ config) : getSpec config e.1 = e.2 := by
  cases hq : config.find? (fun x => x.1 == e.1) with
  | none =>
    exfalso
    have := List.find?_eq_none.mp hq e he
    simp at this
  | some q =>
    have hqm : q ∈ config := List.mem_of_find?_eq_some hq
    have hqk : q.1 = e.1 := by
      have := List.find?_some hq
      simpa using this
    have : q = e := key_unique hnd e he q hqm hqk
    rw [getSpec, hq, this]
    rfl

theorem isValid_iff_findKey {data : Fields} {config : Config} :
    isValid data config = true ↔ ∃ s, findKey config data = some s := by
  rw [isValid, List.any_eq_true, findKey]
  constructor
  · rintro ⟨e, he, hp⟩
    cases hq : config.find? (fun e2 => requireKeys e2.2.required data) with
    | none =>
      exfalso
      have hq2 := List.find?_eq_none.mp hq e he
      simp [hp] at hq2
    | some q =>
      exact ⟨q.1, rfl⟩
  · rintro ⟨s, hs⟩
    cases hq : config.find? (fun e2 => requireKeys e2.2.required data) with
    | none => rw [hq] at hs; simp at hs
    | some q =>
      have hqp := List.find?_some hq
      exact ⟨q, List.mem_of_find?_eq_some hq, by simpa using hqp⟩

/-! Divergence of the failure path: when `{message: ''}` matches no branch,
the `generateResponse` → `error` → `generateResponse` loop never returns. -/

theorem generateResponse_ERROR_none {config : Config}
    (h : findKey config ERROR_FIELDS = none) :
    ∀ fuel, generateResponse fuel ERROR_DATA config = none := by
  intro fuel
  induction fuel with
  | zero => rfl
  | succ f ih =>
    show generateResponse (f + 1) (JSVal.vObj ERROR_FIELDS) config = none
    simp only [generateResponse]
    rw [h]
    exact ih

theorem generateResponse_none_of_noMatch {config : Config} {data : JSVal}
    (hobj : ∀ fields, data = JSVal.vObj fields → findKey config fields = none)
    (herr : findKey config ERROR_FIELDS = none) :
    ∀ fuel, generateResponse fuel data config = none := by
  intro fuel
  cases fuel with
  | zero => rfl
  | succ f =>
    cases data with
    | vObj fields =>
      simp only [generateResponse]
      rw [hobj fields rfl]
      exact generateResponse_ERROR_none herr f
    | vNull => exact generateResponse_ERROR_none herr f
    | vUndefined => exact generateResponse_ERROR_none herr f
    | vBool b => exact generateResponse_ERROR_none herr f
    | vNum n => exact generateResponse_ERROR_none herr f
    | vStr s => exact generateResponse_ERROR_none herr f

/-! Shape of every successful projection, and stability of a projected
object under re-projection. -/

theorem generateResponse_some_shape {config : Config} :
    ∀ (fuel : Nat) (data r : JSVal), generateResponse fuel data config = some r →
      ∃ fields status, findKey config fields = some status ∧
        r = JSVal.vObj (pick fields
          ((getSpec config status).required ++ ((getSpec config status).optional).getD [])) := by
  intro fuel
  induction fuel with
  | zero => intro data r h; exact absurd h (by simp [generateResponse])
  | succ f ih =>
    intro data r h
    cases data with
    | vObj fields =>
      rw [show generateResponse (f + 1) (JSVal.vObj fields) config
            = (match findKey config fields with
               | some status =>
                 some (JSVal.vObj (pick fields
                   ((getSpec config status).required ++ ((getSpec config status).optional).getD [])))
               | none => generateResponse f ERROR_DATA config) from rfl] at h
      cases hk : findKey config fields with
      | some status =>
        rw [hk] at h
        exact ⟨fields, status, hk, (Option.some.inj h).symm⟩
      | none =>
        rw [hk] at h
        exact ih ERROR_DATA r h
    | vNull => exact ih ERROR_DATA r h
    | vUndefined => exact ih ERROR_DATA r h
    | vBool b => exact ih ERROR_DATA r h
    | vNum n => exact ih ERROR_DATA r h
    | vStr s => exact ih ERROR_DATA r h

theorem projected_fixed {config : Config} {fields : Fields} {status : String}
    (hnd : (config.map Prod.fst).Nodup)
    (hfk : findKey config fields = some status) :
    generateResponse 1
        (JSVal.vObj (pick fields
          ((getSpec config status).required ++ ((getSpec config status).optional).getD []))) config
      = some (JSVal.vObj (pick fields
          ((getSpec config status).required ++ ((getSpec config status).optional).getD []))) := by
  rw [findKey] at hfk
  cases hq : config.find? (fun e2 => requireKeys e2.2.required fields) with
  | none => rw [hq] at hfk; simp at hfk
  | some e =>
    rw [hq] at hfk
    have hes : e.1 = status := by simpa using hfk
    have hem : e ∈ config := List.mem_of_find?_eq_some hq
    have hspec : getSpec config status = e.2 := hes ▸ getSpec_of_mem hnd hem
    have hereq : requireKeys e.2.required fields = true := by
      simpa using List.find?_some hq
    rcases find?_some_index hq with ⟨i, hi, hget, hpe, hearl⟩
    rw [hspec]
    set K := e.2.required ++ e.2.optional.getD [] with hK
    set y := pick fields K with hy
    have hmatchy : requireKeys e.2.required y = true := by
      rw [requireKeys_eq_true_iff]
      intro k hk
      rw [hasKey_pick_iff]
      exact ⟨List.mem_append_left _ hk, requireKeys_eq_true_iff.mp hereq k hk⟩
    have hearly : ∀ j, ∀ hj : j < config.length, j < i →
        requireKeys (config.get ⟨j, hj⟩).2.required y = false := by
      intro j hj hlt
      have hjf : requireKeys (config.get ⟨j, hj⟩).2.required fields = false := by
        simpa using hearl j hj hlt
      rcases requireKeys_eq_false_iff.mp hjf with ⟨k, hk, hkf⟩
      exact requireKeys_eq_false_iff.mpr ⟨k, hk, hasKey_pick_false hkf⟩
    have hfind2 : config.find? (fun e2 => requireKeys e2.2.required y) = some e := by
      have := find?_eq_of_earlier_false hi (p := fun e2 => requireKeys e2.2.required y)
        (by rw [hget]; simpa using hmatchy) hearly
      rw [hget] at this
      exact this
    have hfk2 : findKey config y = some status := by
      rw [findKey, hfind2]
      simpa using hes
    show generateResponse 1 (JSVal.vObj y) config = some (JSVal.vObj y)
    rw [show generateResponse 1 (JSVal.vObj y) config
          = (match findKey config y with
             | some st =>
               some (JSVal.vObj (pick y
                 ((getSpec config st).required ++ ((getSpec config st).optional).getD [])))
             | none => generateResponse 0 ERROR_DATA config) from rfl]
    rw [hfk2]
    have hpy : pick y K = y := by
      rw [hy]
      exact pick_congr K (fun _ hk => jsLookup_pick_mem hk)
    show some (JSVal.vObj (pick y
        ((getSpec config status).required ++ ((getSpec config status).optional).getD [])))
      = some (JSVal.vObj y)
    rw [hspec, ← hK, hpy]

/-! The claim theorems. -/

/-- C1: the claim says that on any candidate matching no branch (null,
undefined, `{}`, `{status:"unknown"}`) the projector returns a tagged
ErrorResult and never throws.  The code instead loops forever through
`error({message:''})` (a stack overflow in JavaScript): for every fuel the
fueled semantics returns nothing on all four inputs. -/
theorem c1_nomatch_never_returns : ∀ fuel : Nat,
    generateResponse fuel JSVal.vNull JSEND_CONFIG = none ∧
    generateResponse fuel JSVal.vUndefined JSEND_CONFIG = none ∧
    generateResponse fuel (JSVal.vObj []) JSEND_CONFIG = none ∧
    generateResponse fuel (JSVal.vObj [("status", JSVal.vStr "unknown")]) JSEND_CONFIG = none := by
  intro fuel
  refine ⟨?_, ?_, ?_, ?_⟩
  · exact generateResponse_none_of_noMatch (fun fields h => JSVal.noConfusion h) (by rfl) fuel
  · exact generateResponse_none_of_noMatch (fun fields h => JSVal.noConfusion h) (by rfl) fuel
  · exact generateResponse_none_of_noMatch (fun fields h => by cases h; rfl) (by rfl) fuel
  · exact generateResponse_none_of_noMatch (fun fields h => by cases h; rfl) (by rfl) fuel

/-- C2: the claim says every call terminates, in particular
`generateResponse` even when no branch matches.  It does not: whenever the
candidate matches no branch, `generateResponse` and `error` recurse into
each other forever (the fueled model yields nothing for every fuel). -/
theorem c2_generateResponse_diverges_on_nomatch : ∀ fuel : Nat,
    generateResponse fuel (JSVal.vObj [("foo", JSVal.vNum 0)]) JSEND_CONFIG = none ∧
    error fuel ERROR_DATA JSEND_CONFIG false = none := by
  intro fuel
  constructor
  · exact generateResponse_none_of_noMatch (fun fields h => by cases h; rfl) (by rfl) fuel
  · cases fuel with
    | zero => rfl
    | succ f => exact generateResponse_ERROR_none (by rfl) f

/-- C3 counterexample: projecting `{status:"success"}` under the default
schema does not return `{status:"success"}` for any fuel (the required key
`data` is missing, so no branch matches and the call diverges). -/
theorem c3_counterexample :
    ¬ projectsTo (JSVal.vObj [("status", JSVal.vStr "success")]) JSEND_CONFIG
        (JSVal.vObj [("status", JSVal.vStr "success")]) := by
  rintro ⟨fuel, h⟩
  rw [generateResponse_none_of_noMatch (fun fields hh => by cases hh; rfl) (by rfl) fuel] at h
  exact Option.noConfusion h

/-- C3 amended: `{status:"success"}` matches no branch of the default schema
(`data` is required by success/fail and `message` by error), and instead of
silently omitting the missing key, `generateResponse` never returns at all. -/
theorem c3_missing_required_key_diverges :
    findKey JSEND_CONFIG [("status", JSVal.vStr "success")] = none ∧
    projDiverges (JSVal.vObj [("status", JSVal.vStr "success")]) JSEND_CONFIG := by
  refine ⟨rfl, ?_⟩
  exact generateResponse_none_of_noMatch (fun fields hh => by cases hh; rfl) (by rfl)

/-- C4 counterexample: with the custom schema
`{success:{required:["status","payload"]}}` and input
`{status:"success", data:"x"}`, no fuel makes the projector return the
claimed compound fallback `{payload:"x", status:"success"}`. -/
theorem c4_counterexample :
    ¬ projectsTo (JSVal.vObj [("status", JSVal.vStr "success"), ("data", JSVal.vStr "x")])
        [("success", BranchSpec.mk ["status", "payload"] none)]
        (JSVal.vObj [("payload", JSVal.vStr "x"), ("status", JSVal.vStr "success")]) := by
  rintro ⟨fuel, h⟩
  rw [generateResponse_none_of_noMatch (fun fields hh => by cases hh; rfl) (by rfl) fuel] at h
  exact Option.noConfusion h

/-- C4 amended: there is no cross-schema fallback in the code.  When the
supplied custom schema fails to match (here: `payload` is missing) the
default schema is never consulted, even though it does match the input;
`generateResponse` keeps projecting `{message:''}` under the same custom
schema and diverges. -/
theorem c4_no_compound_fallback :
    isValid [("status", JSVal.vStr "success"), ("data", JSVal.vStr "x")] JSEND_CONFIG = true ∧
    isValid [("status", JSVal.vStr "success"), ("data", JSVal.vStr "x")]
      [("success", BranchSpec.mk ["status", "payload"] none)] = false ∧
    projDiverges (JSVal.vObj [("status", JSVal.vStr "success"), ("data", JSVal.vStr "x")])
      [("success", BranchSpec.mk ["status", "payload"] none)] := by
  refine ⟨rfl, rfl, ?_⟩
  exact generateResponse_none_of_noMatch (fun fields hh => by cases hh; rfl) (by rfl)

/-- C5: `requireKeys` is true iff every required key is an own key of the
candidate; the optional list of the branch spec never enters the check, and
the values of the candidate's fields are irrelevant. -/
theorem c5_requireKeys_spec : ∀ (b : BranchSpec) (data : Fields),
    (requireKeys b.required data = true ↔ ∀ k ∈ b.required, hasKey data k = true) ∧
    (∀ opt2 : Option (List String),
      requireKeys (BranchSpec.mk b.required opt2).required data = requireKeys b.required data) ∧
    (∀ g : String → JSVal → JSVal,
      requireKeys b.required (data.map (fun p => (p.1, g p.1 p.2))) = requireKeys b.required data) := by
  intro b data
  refine ⟨requireKeys_eq_true_iff, fun _ => rfl, fun g => ?_⟩
  simp only [requireKeys, hasKey, List.any_map]
  rfl

/-- C5 witness: the success-style branch spec accepts an object carrying its
only required key. -/
theorem c5_requireKeys_spec_witness :
    requireKeys (BranchSpec.mk ["status"] none).required [("status", JSVal.vNull)] = true :=
  ((c5_requireKeys_spec (BranchSpec.mk ["status"] none) [("status", JSVal.vNull)]).1).mpr
    (by decide)

/-- C6: `isValid` is the existential over branches of the required-key
check, and its boolean value is invariant under permuting the branches. -/
theorem c6_isValid_existential : ∀ (data : Fields) (config : Config),
    (isValid data config = true ↔ ∃ e ∈ config, requireKeys e.2.required data = true) ∧
    (∀ config2 : Config, config.Perm config2 → isValid data config = isValid data config2) := by
  intro data config
  constructor
  · simp [isValid, List.any_eq_true]
  · intro config2 hp
    have haux : ∀ (l1 l2 : Config), l1.Perm l2 →
        l1.any (fun e => requireKeys e.2.required data) = true →
        l2.any (fun e => requireKeys e.2.required data) = true := by
      intro l1 l2 hperm h1
      rw [List.any_eq_true] at h1 ⊢
      rcases h1 with ⟨e, he, hre⟩
      exact ⟨e, hperm.mem_iff.mp he, hre⟩
    rw [isValid, isValid]
    cases h1 : config.any (fun e => requireKeys e.2.required data) with
    | true => exact (haux config config2 hp h1).symm
    | false =>
      cases h2 : config2.any (fun e => requireKeys e.2.required data) with
      | true =>
        have h3 := haux config2 config hp.symm h2
        rw [h1] at h3
        exact h3
      | false => rfl

/-- C6 witness: permuting the default schema's branches does not change the
verdict on a concrete candidate. -/
theorem c6_isValid_existential_witness :
    isValid [("status", JSVal.vStr "ok")] JSEND_CONFIG
      = isValid [("status", JSVal.vStr "ok")] JSEND_CONFIG.reverse :=
  (c6_isValid_existential [("status", JSVal.vStr "ok")] JSEND_CONFIG).2
    JSEND_CONFIG.reverse (List.reverse_perm JSEND_CONFIG).symm

/-- C7: constructing a `TSEnd` instance with a supplied schema throws iff
the schema is invalid (some branch lacks `required`); with no schema it
succeeds and keeps the default config; and the Scenario D schema
`{success:{required:["status"]}, bogus:{}}` is reported invalid. -/
theorem c7_construct_guard :
    (∀ c : RawConfig, TSEnd.construct (some c) = Except.error () ↔ isValidConfig c = false) ∧
    TSEnd.construct none = Except.ok (configToRaw JSEND_CONFIG) ∧
    isValidConfig
      [("success", RawBranchSpec.mk (some ["status"]) none),
       ("bogus", RawBranchSpec.mk none none)] = false := by
  refine ⟨fun c => ?_, rfl, rfl⟩
  cases hv : isValidConfig c with
  | true => simp [TSEnd.construct, hv]
  | false => simp [TSEnd.construct, hv]

/-- C7 witness: constructing an instance with the Scenario D schema throws. -/
theorem c7_construct_guard_witness :
    TSEnd.construct (some
      [("success", RawBranchSpec.mk (some ["status"]) none),
       ("bogus", RawBranchSpec.mk none none)]) = Except.error () :=
  (c7_construct_guard.1
    [("success", RawBranchSpec.mk (some ["status"]) none),
     ("bogus", RawBranchSpec.mk none none)]).mpr (by rfl)

/-- C8: on a matched candidate, `generateResponse` selects the first branch
in declaration order whose required keys are all present, and the result is
the pick of that branch's required and optional keys: every key of the
result is among the branch's declared keys (hence in particular in their
union with `status`), with the candidate's value verbatim. -/
theorem c8_first_match_projection (fields : Fields) (config : Config) (fuel : Nat)
    (hnd : (config.map Prod.fst).Nodup)
    (hv : isValid fields config = true) (hf : 1 ≤ fuel) :
    ∃ i, ∃ hi : i < config.length,
      requireKeys (config.get ⟨i, hi⟩).2.required fields = true ∧
      (∀ j, ∀ hj : j < config.length, j < i →
        requireKeys (config.get ⟨j, hj⟩).2.required fields = false) ∧
      generateResponse fuel (JSVal.vObj fields) config
        = some (JSVal.vObj (pick fields
            ((config.get ⟨i, hi⟩).2.required ++ ((config.get ⟨i, hi⟩).2.optional).getD []))) ∧
      ∀ p ∈ pick fields
          ((config.get ⟨i, hi⟩).2.required ++ ((config.get ⟨i, hi⟩).2.optional).getD []),
        p.1 ∈ (config.get ⟨i, hi⟩).2.required ++ ((config.get ⟨i, hi⟩).2.optional).getD [] ∧
        jsLookup fields p.1 = some p.2 := by
  rcases isValid_iff_findKey.mp hv with ⟨status, hfk⟩
  rw [findKey] at hfk
  cases hq : config.find? (fun e2 => requireKeys e2.2.required fields) with
  | none => rw [hq] at hfk; exact absurd hfk (by simp)
  | some e =>
    rw [hq] at hfk
    have hes : e.1 = status := by simpa using hfk
    have hem : e ∈ config := List.mem_of_find?_eq_some hq
    have hspec : getSpec config status = e.2 := hes ▸ getSpec_of_mem hnd hem
    rcases find?_some_index hq with ⟨i, hi, hget, hpe, hearl⟩
    refine ⟨i, hi, ?_, ?_, ?_, ?_⟩
    · rw [hget]; simpa using hpe
    · intro j hj hlt; simpa using hearl j hj hlt
    · obtain ⟨f, rfl⟩ : ∃ f, fuel = f + 1 := ⟨fuel - 1, by omega⟩
      rw [show generateResponse (f + 1) (JSVal.vObj fields) config
            = (match findKey config fields with
               | some st => some (JSVal.vObj (pick fields
                   ((getSpec config st).required ++ ((getSpec config st).optional).getD [])))
               | none => generateResponse f ERROR_DATA config) from rfl]
      have hfk2 : findKey config fields = some status := by
        rw [findKey, hq]
        simpa using hes
      rw [hfk2]
      show some (JSVal.vObj (pick fields
          ((getSpec config status).required ++ ((getSpec config status).optional).getD [])))
        = some (JSVal.vObj (pick fields
            ((config.get ⟨i, hi⟩).2.required ++ ((config.get ⟨i, hi⟩).2.optional).getD [])))
      rw [hspec, hget]
    · intro p hp
      exact mem_pick hp

/-- C8 witness: Scenario B.  Projecting
`{status:"error", message:"bad", code:400, extra:"drop me"}` under the
default schema keeps exactly `status`, `message`, `code` (the `extra` field
is dropped), and the general first-match theorem applies to it. -/
theorem c8_first_match_projection_witness :
    generateResponse 1
        (JSVal.vObj [("status", JSVal.vStr "error"), ("message", JSVal.vStr "bad"),
          ("code", JSVal.vNum 400), ("extra", JSVal.vStr "drop me")]) JSEND_CONFIG
      = some (JSVal.vObj [("status", JSVal.vStr "error"), ("message", JSVal.vStr "bad"),
          ("code", JSVal.vNum 400)]) ∧
    (∃ i, ∃ hi : i < JSEND_CONFIG.length,
      requireKeys (JSEND_CONFIG.get ⟨i, hi⟩).2.required
          [("status", JSVal.vStr "error"), ("message", JSVal.vStr "bad"),
           ("code", JSVal.vNum 400), ("extra", JSVal.vStr "drop me")] = true ∧
      (∀ j, ∀ hj : j < JSEND_CONFIG.length, j < i →
        requireKeys (JSEND_CONFIG.get ⟨j, hj⟩).2.required
          [("status", JSVal.vStr "error"), ("message", JSVal.vStr "bad"),
           ("code", JSVal.vNum 400), ("extra", JSVal.vStr "drop me")] = false) ∧
      generateResponse 1
          (JSVal.vObj [("status", JSVal.vStr "error"), ("message", JSVal.vStr "bad"),
            ("code", JSVal.vNum 400), ("extra", JSVal.vStr "drop me")]) JSEND_CONFIG
        = some (JSVal.vObj (pick
            [("status", JSVal.vStr "error"), ("message", JSVal.vStr "bad"),
             ("code", JSVal.vNum 400), ("extra", JSVal.vStr "drop me")]
            ((JSEND_CONFIG.get ⟨i, hi⟩).2.required
              ++ ((JSEND_CONFIG.get ⟨i, hi⟩).2.optional).getD []))) ∧
      ∀ p ∈ pick
          [("status", JSVal.vStr "error"), ("message", JSVal.vStr "bad"),
           ("code", JSVal.vNum 400), ("extra", JSVal.vStr "drop me")]
          ((JSEND_CONFIG.get ⟨i, hi⟩).2.required
            ++ ((JSEND_CONFIG.get ⟨i, hi⟩).2.optional).getD []),
        p.1 ∈ (JSEND_CONFIG.get ⟨i, hi⟩).2.required
            ++ ((JSEND_CONFIG.get ⟨i, hi⟩).2.optional).getD [] ∧
        jsLookup
          [("status", JSVal.vStr "error"), ("message", JSVal.vStr "bad"),
           ("code", JSVal.vNum 400), ("extra", JSVal.vStr "drop me")] p.1 = some p.2) :=
  ⟨rfl,
   c8_first_match_projection
     [("status", JSVal.vStr "error"), ("message", JSVal.vStr "bad"),
      ("code", JSVal.vNum 400), ("extra", JSVal.vStr "drop me")]
     JSEND_CONFIG 1 (by decide) (by rfl) (by decide)⟩

/-- C9: idempotence on matched results.  If projecting `x` returns the
object `yf`, and `yf` matches a branch of the same schema (whose branch
names are distinct, as JS object keys are), then projecting `yf` again
returns `yf` unchanged. -/
theorem c9_projection_idempotent (x : JSVal) (config : Config) (fuel : Nat) (yf : Fields)
    (hnd : (config.map Prod.fst).Nodup)
    (h : generateResponse fuel x config = some (JSVal.vObj yf))
    (hm : isValid yf config = true) :
    generateResponse 1 (JSVal.vObj yf) config = some (JSVal.vObj yf) := by
  rcases generateResponse_some_shape fuel x (JSVal.vObj yf) h with ⟨fields, status, hfk, hr⟩
  have hyf : yf = pick fields
      ((getSpec config status).required ++ ((getSpec config status).optional).getD []) := by
    injection hr
  rw [hyf]
  exact projected_fixed hnd hfk

/-- C9 witness: the already-shaped object `{status:"success", data:1}` is a
fixed point of projection under the default schema. -/
theorem c9_projection_idempotent_witness :
    generateResponse 1
        (JSVal.vObj [("status", JSVal.vStr "success"), ("data", JSVal.vNum 1)]) JSEND_CONFIG
      = some (JSVal.vObj [("status", JSVal.vStr "success"), ("data", JSVal.vNum 1)]) :=
  c9_projection_idempotent
    (JSVal.vObj [("status", JSVal.vStr "success"), ("data", JSVal.vNum 1)])
    JSEND_CONFIG 1 [("status", JSVal.vStr "success"), ("data", JSVal.vNum 1)]
    (by decide) (by rfl) (by rfl)

/-- C10: the static constructors.  On a nil payload (null or undefined),
`TSEnd.success` and `TSEnd.fail` return the error envelope
`{status:"error", message:""}` (via `TSEnd.error('')`); on any other
payload they return `{status:"success", data}` resp. `{status:"fail",
data}`.  They never consult a schema: the translated functions take none. -/
theorem c10_static_constructors (d : JSVal) :
    (isNilJS d = true →
      TSEnd.success d
        = JSVal.vObj [("status", JSVal.vStr "error"), ("message", JSVal.vStr "")] ∧
      TSEnd.fail d
        = JSVal.vObj [("status", JSVal.vStr "error"), ("message", JSVal.vStr "")]) ∧
    (isNilJS d = false →
      TSEnd.success d = JSVal.vObj [("status", JSVal.vStr "success"), ("data", d)] ∧
      TSEnd.fail d = JSVal.vObj [("status", JSVal.vStr "fail"), ("data", d)]) := by
  have herr : TSEnd.error (JSVal.vStr "")
      = JSVal.vObj [("status", JSVal.vStr "error"), ("message", JSVal.vStr "")] := by
    rw [TSEnd.error]
    simp [isEmptyJS, isStringJS]
  refine ⟨fun h => ?_, fun h => ?_⟩
  · rw [TSEnd.success, TSEnd.fail, if_pos h, if_pos h, herr]
    exact ⟨rfl, rfl⟩
  · rw [TSEnd.success, TSEnd.fail, if_neg (by simp [h]), if_neg (by simp [h])]
    exact ⟨rfl, rfl⟩

/-- C10 witness: `TSEnd.success(null)` yields the error envelope and
`TSEnd.fail(7)` yields the fail envelope. -/
theorem c10_static_constructors_witness :
    TSEnd.success JSVal.vNull
      = JSVal.vObj [("status", JSVal.vStr "error"), ("message", JSVal.vStr "")] ∧
    TSEnd.fail (JSVal.vNum 7)
      = JSVal.vObj [("status", JSVal.vStr "fail"), ("data", JSVal.vNum 7)] :=
  ⟨((c10_static_constructors JSVal.vNull).1 rfl).1,
   ((c10_static_constructors (JSVal.vNum 7)).2 rfl).2⟩

end TSend
